import Mathlib

/-!
Verification of the type-stub writer (`src/server/src/analyzer/typeStubWriter.ts`).

The writer walks a parsed syntax tree and appends rendered lines to an output
buffer.  In the source, every piece of output goes through the single method
`_emitLine`, which appends `tab * indentAmount ++ line ++ lineEnd` to the text
buffer; we therefore model the buffer as the list of emitted `(indent, line)`
pairs and recover the final text with `renderLine`/`stubText`.

External collaborators that are not part of the source under verification are
modelled from the spec:
* the name-visibility classifier (`SymbolUtils.isPrivateName` /
  `SymbolUtils.isProtectedName`) is an injected pure predicate on identifier
  strings (spec section 6);
* the expression renderer (`ParseTreeUtils.printExpression`) is total and
  opaque, so an expression node is represented by its rendered text;
* the generic `ParseTreeWalker`: every overridden visit method of the writer
  returns `false`, meaning the walker does not descend into the node's
  children on its own; children are only walked by the explicit
  `walkChildren` calls inside the visit methods.
-/

namespace TypeStub

/-- Source text is modelled as a list of characters so that concatenation
reasoning stays elementary. -/
abbrev Str := List Char

/-- Characters of a string literal. -/
def str (s : String) : Str := s.data

/-- Formatting preferences and the injected visibility classifier.
`lineEnd` and `tab` correspond to `predominantLineEndSequence` and
`predominantTabSequence` pulled in `write()`; the two predicates are the
external `SymbolUtils` classifier (modelled from the spec: a pure function of
the identifier string). -/
structure Config where
  lineEnd : Str
  tab : Str
  isPrivateName : Str → Bool
  isProtectedName : Str → Bool

/-- Modelled from the spec: the external expression renderer is total, so an
expression subtree is represented by the text it renders to. -/
structure ExpressionNode where
  text : Str

/-- `ArgumentCategory` from the parser node model. -/
inductive ArgumentCategory where
  | simple
  | unpackedList
  | unpackedDictionary

/-- `ParameterCategory` from the parser node model. -/
inductive ParameterCategory where
  | simple
  | varArgList
  | varArgDictionary

/-- `ArgumentNode`: category, optional keyword name, value expression. -/
structure ArgumentNode where
  argumentCategory : ArgumentCategory
  name : Option Str
  valueExpression : ExpressionNode

/-- `ParameterNode`: category, optional name, optional type annotation,
optional default value expression. -/
structure ParameterNode where
  category : ParameterCategory
  name : Option Str
  typeAnnot : Option ExpressionNode
  defaultValue : Option ExpressionNode

/-- `DecoratorNode`: decorated expression and optional call arguments. -/
structure DecoratorNode where
  leftExpression : ExpressionNode
  arguments : Option (List ArgumentNode)

/-- `ModuleNameNode`: leading relative dots and dotted name parts. -/
structure ModuleNameNode where
  leadingDots : Nat
  nameParts : List Str

/-- One entry of an `import` statement (module plus optional alias). -/
structure ImportAsNode where
  module : ModuleNameNode
  aliasName : Option Str

/-- One entry of a `from ... import` statement (name plus optional alias). -/
structure ImportFromAsNode where
  name : Str
  aliasName : Option Str

mutual

/-- The statement kinds the writer reacts to (`visitClass`, `visitFunction`,
`visitImport`, `visitImportFrom`); all other node kinds are never rendered. -/
inductive Statement where
  | classDef (name : Str) (decorators : List DecoratorNode)
      (args : List ArgumentNode) (body : Suite)
  | functionDef (name : Str) (isAsync : Bool) (decorators : List DecoratorNode)
      (params : List ParameterNode) (returnTypeAnnot : Option ExpressionNode)
      (body : Suite)
  | importStmt (lst : List ImportAsNode)
  | importFrom (module : ModuleNameNode) (isWildcardImport : Bool)
      (imports : List ImportFromAsNode)

/-- A suite: the ordered statements of a module or of a class/function body. -/
inductive Suite where
  | nil
  | cons (st : Statement) (rest : Suite)

end

/-- Engine-owned mutable state of `TypeStubWriter` (fields initialised at
lines 22-28 of the source).  `_typeStubText` is represented by the list of
`(indentAmount, line)` pairs passed to `_emitLine`, see the file comment. -/
@[ext]
structure WriterState where
  indentAmount : Nat
  buffer : List (Nat × Str)
  classNestCount : Nat
  functionNestCount : Nat
  emittedSuite : Bool
deriving DecidableEq

/-- `_emitLine`: appends one line at the current indentation. -/
def emitLine (s : WriterState) (line : Str) : WriterState :=
  { s with buffer := s.buffer ++ [(s.indentAmount, line)] }

/-- Text of one buffer entry: `tab` repeated `indent` times, the line, and the
line terminator — exactly what `_emitLine` appends to `_typeStubText`. -/
def renderLine (cfg : Config) (e : Nat × Str) : Str :=
  List.flatten (List.replicate e.1 cfg.tab) ++ e.2 ++ cfg.lineEnd

/-- `_printExpression` (delegates to the external renderer). -/
def printExpression (node : ExpressionNode) : Str := node.text

/-- `_printModuleName`. -/
def printModuleName (node : ModuleNameNode) : Str :=
  List.replicate node.leadingDots '.' ++ List.intercalate (str ".") node.nameParts

/-- `_printParameter`. -/
def printParameter (node : ParameterNode) : Str :=
  (match node.category with
    | ParameterCategory.simple => []
    | ParameterCategory.varArgList => str "*"
    | ParameterCategory.varArgDictionary => str "**") ++
  (match node.name with
    | some n => n
    | none => []) ++
  (match node.typeAnnot with
    | some t => str ": " ++ printExpression t
    | none => []) ++
  (match node.defaultValue with
    | some _ =>
        match node.typeAnnot with
        | some _ => str " = ..."
        | none => str "=..."
    | none => [])

/-- `_printArgument` (used for decorator call arguments). -/
def printArgument (node : ArgumentNode) : Str :=
  (match node.argumentCategory with
    | ArgumentCategory.simple => []
    | ArgumentCategory.unpackedList => str "*"
    | ArgumentCategory.unpackedDictionary => str "**") ++
  (match node.name with
    | some n => n ++ str "="
    | none => []) ++
  printExpression node.valueExpression

/-- The inline argument rendering of `visitClass` (source lines 55-62): the
optional `name=` part followed by the value expression — note it has no
unpack-sigil case. -/
def classArgText (arg : ArgumentNode) : Str :=
  (match arg.name with
    | some n => n ++ str "="
    | none => []) ++
  printExpression arg.valueExpression

/-- One decorator line of `_emitDecorators`. -/
def decoratorLine (d : DecoratorNode) : Str :=
  str "@" ++ printExpression d.leftExpression ++
  (match d.arguments with
    | some args => str "(" ++ List.intercalate (str ", ") (args.map printArgument) ++ str ")"
    | none => [])

/-- `_emitDecorators`. -/
def emitDecorators (s : WriterState) (ds : List DecoratorNode) : WriterState :=
  ds.foldl (fun t d => emitLine t (decoratorLine d)) s

/-- `_emitHeaderDocString`. -/
def emitHeaderDocString (s : WriterState) : WriterState :=
  emitLine (emitLine (emitLine (emitLine s
    (str "\"\"\"")) (str "This type stub file was generated by pyright.")) (str "\"\"\"")) []

/-- `_increaseIndent`. -/
def increaseIndent (callback : WriterState → WriterState) (s : WriterState) : WriterState :=
  let s1 := { s with indentAmount := s.indentAmount + 1 }
  let s2 := callback s1
  { s2 with indentAmount := s2.indentAmount - 1 }

/-- `_emitSuite`: save the suite-emptiness flag, reset it, run the body,
emit the `...` placeholder if nothing was emitted, restore the flag. -/
def emitSuite (callback : WriterState → WriterState) (s : WriterState) : WriterState :=
  increaseIndent (fun t =>
    let prevEmittedSuite := t.emittedSuite
    let t1 := { t with emittedSuite := false }
    let t2 := callback t1
    let t3 := if t2.emittedSuite then t2 else emitLine t2 (str "...")
    { t3 with emittedSuite := prevEmittedSuite }) s

/-- The name filter of `visitClass`/`visitFunction`: a name is skipped when
the classifier reports it protected or private. -/
def rejectedName (cfg : Config) (n : Str) : Bool :=
  cfg.isProtectedName n || cfg.isPrivateName n

/-- The class header line built at source lines 53-64. -/
def classHeaderLine (name : Str) (args : List ArgumentNode) : Str :=
  str "class " ++ name ++
  (if args.length > 0 then
    str "(" ++ List.intercalate (str ", ") (args.map classArgText) ++ str ")"
   else []) ++ str ":"

/-- The function header line built at source lines 90-96. -/
def functionHeaderLine (name : Str) (isAsync : Bool) (params : List ParameterNode)
    (returnTypeAnnot : Option ExpressionNode) : Str :=
  (if isAsync then str "async " else []) ++ str "def " ++ name ++
  str "(" ++ List.intercalate (str ", ") (params.map printParameter) ++ str ")" ++
  (match returnTypeAnnot with
    | some r => str " -> " ++ printExpression r
    | none => []) ++ str ":"

/-- The line built by `visitImport`. -/
def importLine (lst : List ImportAsNode) : Str :=
  str "import " ++ List.intercalate (str ", ")
    (lst.map (fun imp => printModuleName imp.module ++
      (match imp.aliasName with
        | some a => str " as " ++ a
        | none => [])))

/-- The line built by `visitImportFrom`. -/
def importFromLine (m : ModuleNameNode) (isWildcardImport : Bool)
    (imports : List ImportFromAsNode) : Str :=
  str "from " ++ printModuleName m ++ str " import " ++
  (if isWildcardImport then str "*"
   else List.intercalate (str ", ")
     (imports.map (fun imp => imp.name ++
       (match imp.aliasName with
         | some a => str " as " ++ a
         | none => []))))

mutual

/-- One visit dispatch of the walk: `visitClass`, `visitFunction`,
`visitImport` and `visitImportFrom` transcribed from the source.  All four
return `false` in the source, so the generic walker never descends into the
children by itself; class/function bodies are walked only via the explicit
`walkChildren` call inside `_emitSuite`. -/
def walkStatement (cfg : Config) (s : WriterState) : Statement → WriterState
  | Statement.classDef name ds args body =>
      if rejectedName cfg name = false then
        let s1 := { s with emittedSuite := true }
        let s2 := emitDecorators s1 ds
        let s3 := emitLine s2 (classHeaderLine name args)
        let s4 := emitSuite (fun t =>
          let t1 := { t with classNestCount := t.classNestCount + 1 }
          let t2 := walkSuite cfg t1 body
          { t2 with classNestCount := t2.classNestCount - 1 }) s3
        emitLine (emitLine s4 []) []
      else s
  | Statement.functionDef name isAsync ds params rta body =>
      if s.functionNestCount = 0 ∧ rejectedName cfg name = false then
        let s1 := { s with emittedSuite := true }
        let s2 := emitDecorators s1 ds
        let s3 := emitLine s2 (functionHeaderLine name isAsync params rta)
        let s4 := emitSuite (fun t =>
          let t1 := { t with functionNestCount := t.functionNestCount + 1 }
          let t2 := walkSuite cfg t1 body
          { t2 with functionNestCount := t2.functionNestCount - 1 }) s3
        emitLine s4 []
      else s
  | Statement.importStmt lst =>
      if 0 < s.functionNestCount ∨ 0 < s.classNestCount then s
      else emitLine s (importLine lst)
  | Statement.importFrom m wild imports =>
      if 0 < s.functionNestCount ∨ 0 < s.classNestCount then s
      else emitLine s (importFromLine m wild imports)

/-- Walking the statements of a suite in order. -/
def walkSuite (cfg : Config) (s : WriterState) : Suite → WriterState
  | Suite.nil => s
  | Suite.cons st rest => walkSuite cfg (walkStatement cfg s st) rest

end

/-- The freshly-constructed writer state (source lines 22-28). -/
def initialState : WriterState :=
  { indentAmount := 0
    buffer := []
    classNestCount := 0
    functionNestCount := 0
    emittedSuite := false }

/-- `write()`: fresh state, header docstring, walk of the module tree; the
result is the final output buffer. -/
def writeBuffer (cfg : Config) (tree : Suite) : List (Nat × Str) :=
  (walkSuite cfg (emitHeaderDocString initialState) tree).buffer

/-- The complete output text handed to `_writeFile`. -/
def stubText (cfg : Config) (tree : Suite) : Str :=
  List.flatten ((writeBuffer cfg tree).map (renderLine cfg))

/-- A concrete classifier instance for witnesses: the usual leading-underscore
convention. -/
def cfg0 : Config :=
  { lineEnd := str "\n"
    tab := str "    "
    isPrivateName := fun n =>
      match n with
      | '_' :: '_' :: _ => true
      | _ => false
    isProtectedName := fun n =>
      match n with
      | '_' :: _ => true
      | _ => false }

/-- The writer state at the start of an accepted class's suite body: the
decorators and the header line are in the buffer, the indentation is one
deeper, the class nesting count is one higher, and the suite-emptiness flag
has been reset. -/
def classBodyStart (s : WriterState) (ds : List DecoratorNode) (name : Str)
    (args : List ArgumentNode) : WriterState :=
  { indentAmount := s.indentAmount + 1
    buffer := s.buffer ++ (ds.map fun d => (s.indentAmount, decoratorLine d))
      ++ [(s.indentAmount, classHeaderLine name args)]
    classNestCount := s.classNestCount + 1
    functionNestCount := s.functionNestCount
    emittedSuite := false }

/-- The writer state at the start of an accepted function's suite body. -/
def funcBodyStart (s : WriterState) (ds : List DecoratorNode) (name : Str)
    (isAsync : Bool) (params : List ParameterNode)
    (rta : Option ExpressionNode) : WriterState :=
  { indentAmount := s.indentAmount + 1
    buffer := s.buffer ++ (ds.map fun d => (s.indentAmount, decoratorLine d))
      ++ [(s.indentAmount, functionHeaderLine name isAsync params rta)]
    classNestCount := s.classNestCount
    functionNestCount := s.functionNestCount + 1
    emittedSuite := false }

/-- A statement is filtered out when visited with the given nesting counts:
it emits nothing and the walk does not descend into it. -/
def filteredStmt (cfg : Config) (fnNest clsNest : Nat) : Statement → Bool
  | Statement.classDef n _ _ _ => rejectedName cfg n
  | Statement.functionDef n _ _ _ _ _ => (fnNest != 0) || rejectedName cfg n
  | Statement.importStmt _ => (fnNest != 0) || (clsNest != 0)
  | Statement.importFrom _ _ _ => (fnNest != 0) || (clsNest != 0)

/-- Every statement of the suite is filtered out at the given nesting. -/
def allFiltered (cfg : Config) (fnNest clsNest : Nat) : Suite → Bool
  | Suite.nil => true
  | Suite.cons st rest =>
      filteredStmt cfg fnNest clsNest st && allFiltered cfg fnNest clsNest rest

/-- Every statement of the suite is a function definition. -/
def allFunctionDefs : Suite → Bool
  | Suite.nil => true
  | Suite.cons st rest =>
      (match st with
        | Statement.functionDef _ _ _ _ _ _ => true
        | _ => false) && allFunctionDefs rest

/-- Identifier characters of the target language. -/
def identChar (c : Char) : Bool := c.isAlphanum || c == '_'

/-- A plausible identifier: nonempty and made of identifier characters. -/
def isIdent (n : Str) : Bool := !n.isEmpty && n.all identChar

/-- `headsWith p c` holds when `c` starts with `p`. -/
def headsWith : Str → Str → Bool
  | [], _ => true
  | _ :: _, [] => false
  | a :: p, b :: c => a == b && headsWith p c

/-- `c` is a class declaration line for the name `n`: it starts with
`class n:` or `class n(`. -/
def classDeclLineFor (n c : Str) : Bool :=
  headsWith (str "class " ++ n ++ str ":") c || headsWith (str "class " ++ n ++ str "(") c

/-- `c` is a function declaration line for the name `n`: it starts with
`def n(` or `async def n(`. -/
def funcDeclLineFor (n c : Str) : Bool :=
  headsWith (str "def " ++ n ++ str "(") c || headsWith (str "async def " ++ n ++ str "(") c

mutual

/-- Well-formed input: every class and function name is an identifier. -/
def wfStatement : Statement → Bool
  | Statement.classDef n _ _ body => isIdent n && wfSuite body
  | Statement.functionDef n _ _ _ _ body => isIdent n && wfSuite body
  | Statement.importStmt _ => true
  | Statement.importFrom _ _ _ => true

/-- Well-formedness of all statements of a suite. -/
def wfSuite : Suite → Bool
  | Suite.nil => true
  | Suite.cons st rest => wfStatement st && wfSuite rest

end

/-- `Extends s s'`: `s'` is reachable from `s` by emission only — the
indentation and nesting counters are restored, the buffer has only grown,
and the suite-emptiness flag can have become set only if something was
actually appended. -/
def Extends (s s' : WriterState) : Prop :=
  s'.indentAmount = s.indentAmount ∧
  s'.classNestCount = s.classNestCount ∧
  s'.functionNestCount = s.functionNestCount ∧
  ∃ Δ, s'.buffer = s.buffer ++ Δ ∧
    (s'.emittedSuite = true → s.emittedSuite = true ∨ Δ ≠ [])

/-- Fixture: a convention-private module-level function. -/
def privFuncStmt : Statement :=
  Statement.functionDef (str "_h") false [] [] none Suite.nil

/-- Fixture: a public class whose only member is private. -/
def clsWithPrivMember : Statement :=
  Statement.classDef (str "C") [] [] (Suite.cons privFuncStmt Suite.nil)

/-- Fixture: body of a private class, holding one public function. -/
def privClassBody : Suite :=
  Suite.cons (Statement.functionDef (str "f") false [] [] none Suite.nil) Suite.nil

/-- Fixture: a convention-private class with a public member. -/
def privClassStmt : Statement := Statement.classDef (str "_C") [] [] privClassBody

/-- Fixture: a starred (unpack) base-class argument. -/
def starArg : ArgumentNode :=
  { argumentCategory := ArgumentCategory.unpackedList
    name := none
    valueExpression := { text := str "bases" } }

/-- Fixture: a public class with a starred base-class argument. -/
def starClassStmt : Statement := Statement.classDef (str "C") [] [starArg] Suite.nil

/-- Fixture: a public function nested inside another function's body. -/
def innerFuncStmt : Statement :=
  Statement.functionDef (str "g") false [] [] none Suite.nil

/-- Fixture: a public module-level function with a nested function. -/
def outerFuncStmt : Statement :=
  Statement.functionDef (str "f") false [] [] none (Suite.cons innerFuncStmt Suite.nil)

/-- Fixture: module name `os`. -/
def osModule : ModuleNameNode := { leadingDots := 0, nameParts := [str "os"] }

/-- Fixture: a module with a private top-level function and a public class
holding the same private function. -/
def c2Tree : Suite :=
  Suite.cons privFuncStmt
    (Suite.cons clsWithPrivMember Suite.nil)

/-- `_emitDecorators` appends exactly one line per decorator at the current
indentation and changes nothing else. -/
theorem emitDecorators_eq (s : WriterState) (ds : List DecoratorNode) :
    emitDecorators s ds
      = { s with buffer := s.buffer ++ ds.map (fun d => (s.indentAmount, decoratorLine d)) } := by
  induction ds generalizing s with
  | nil => simp [emitDecorators]
  | cons d rest ih =>
      have h1 : emitDecorators s (d :: rest) = emitDecorators (emitLine s (decoratorLine d)) rest := rfl
      rw [h1, ih]
      simp [emitLine]

/-- `Extends` is reflexive. -/
theorem extends_rfl (s : WriterState) : Extends s s :=
  ⟨rfl, rfl, rfl, [], by simp, fun h => Or.inl h⟩

/-- `Extends` is transitive. -/
theorem extends_trans {a b c : WriterState} (h1 : Extends a b) (h2 : Extends b c) :
    Extends a c := by
  obtain ⟨i1, c1, f1, Δ1, b1, g1⟩ := h1
  obtain ⟨i2, c2, f2, Δ2, b2, g2⟩ := h2
  refine ⟨i2.trans i1, c2.trans c1, f2.trans f1, Δ1 ++ Δ2, ?_, ?_⟩
  · rw [b2, b1, List.append_assoc]
  · intro hc
    rcases g2 hc with hb | hΔ2
    · rcases g1 hb with ha | hΔ1
      · exact Or.inl ha
      · exact Or.inr (by simp [hΔ1])
    · exact Or.inr (by simp [hΔ2])

/-- Emitting one line only appends to the buffer. -/
theorem emitLine_extends (s : WriterState) (l : Str) : Extends s (emitLine s l) :=
  ⟨rfl, rfl, rfl, [(s.indentAmount, l)], rfl, fun h => Or.inl h⟩

/-- Emitting decorators only appends to the buffer. -/
theorem emitDecorators_extends (s : WriterState) (ds : List DecoratorNode) :
    Extends s (emitDecorators s ds) := by
  rw [emitDecorators_eq]
  exact ⟨rfl, rfl, rfl, _, rfl, fun h => Or.inl h⟩

/-- Evaluation of `_emitSuite` given the effect of its body on the reset
state: the suite's lines are the body's lines plus, when the body left the
emptiness flag unset, the `...` placeholder one level deeper; indentation and
the emptiness flag come back to their values at the call. -/
theorem emitSuite_run (g : WriterState → WriterState) (s : WriterState)
    (Δ : List (Nat × Str)) (fb : Bool)
    (hg : g { { s with indentAmount := s.indentAmount + 1 } with emittedSuite := false }
        = { s with indentAmount := s.indentAmount + 1, emittedSuite := fb,
                   buffer := s.buffer ++ Δ }) :
    emitSuite g s
      = { s with buffer := s.buffer ++
          (Δ ++ (if fb then [] else [(s.indentAmount + 1, str "...")])) } := by
  unfold emitSuite increaseIndent
  simp only []
  rw [hg]
  cases fb <;> apply WriterState.ext <;> simp [emitLine, List.append_assoc]

/-- The effect of an `Extends`-respecting suite body, put into equational
form for `emitSuite_run`. -/
theorem body_run_of_extends (g : WriterState → WriterState)
    (hg : ∀ t, Extends t (g t)) (s : WriterState) :
    ∃ Δ fb,
      g { { s with indentAmount := s.indentAmount + 1 } with emittedSuite := false }
        = { s with indentAmount := s.indentAmount + 1, emittedSuite := fb,
                   buffer := s.buffer ++ Δ } ∧
      (fb = true → Δ ≠ []) := by
  obtain ⟨hi, hc, hf, Δ, hb, hflag⟩ :=
    hg { { s with indentAmount := s.indentAmount + 1 } with emittedSuite := false }
  refine ⟨Δ,
    (g { { s with indentAmount := s.indentAmount + 1 } with emittedSuite := false }).emittedSuite,
    ?_, ?_⟩
  · apply WriterState.ext <;> simp_all
  · intro hfb
    rcases hflag hfb with h | h
    · simp at h
    · exact h

/-- `_emitSuite` only appends to the buffer whenever its body does so, and it
restores the indentation, the nesting counts and the emptiness flag. -/
theorem emitSuite_extends (g : WriterState → WriterState)
    (hg : ∀ t, Extends t (g t)) (s : WriterState) : Extends s (emitSuite g s) := by
  obtain ⟨Δ, fb, heq, -⟩ := body_run_of_extends g hg s
  rw [emitSuite_run g s Δ fb heq]
  exact ⟨rfl, rfl, rfl, _, rfl, fun h => Or.inl h⟩

/-- The suite body of `visitClass` (nesting-count bracketing around the walk
of the children) respects `Extends`. -/
theorem classCb_extends (cfg : Config) (body : Suite)
    (hsuite : ∀ t, Extends t (walkSuite cfg t body)) :
    ∀ t, Extends t
      (let t1 := { t with classNestCount := t.classNestCount + 1 }
       let t2 := walkSuite cfg t1 body
       { t2 with classNestCount := t2.classNestCount - 1 }) := by
  intro t
  obtain ⟨hi, hc, hf, Δ, hb, hflag⟩ := hsuite { t with classNestCount := t.classNestCount + 1 }
  simp only []
  refine ⟨by simp [hi], by simp [hc], by simp [hf], Δ, by simpa using hb, ?_⟩
  intro hfl
  rcases hflag (by simpa using hfl) with h | h
  · exact Or.inl (by simpa using h)
  · exact Or.inr h

/-- The suite body of `visitFunction` respects `Extends`. -/
theorem funcCb_extends (cfg : Config) (body : Suite)
    (hsuite : ∀ t, Extends t (walkSuite cfg t body)) :
    ∀ t, Extends t
      (let t1 := { t with functionNestCount := t.functionNestCount + 1 }
       let t2 := walkSuite cfg t1 body
       { t2 with functionNestCount := t2.functionNestCount - 1 }) := by
  intro t
  obtain ⟨hi, hc, hf, Δ, hb, hflag⟩ := hsuite { t with functionNestCount := t.functionNestCount + 1 }
  simp only []
  refine ⟨by simp [hi], by simp [hc], by simp [hf], Δ, by simpa using hb, ?_⟩
  intro hfl
  rcases hflag (by simpa using hfl) with h | h
  · exact Or.inl (by simpa using h)
  · exact Or.inr h

mutual

/-- Each visit only appends to the buffer, restores indentation and nesting
counts, and sets the suite-emptiness flag only if it appended something. -/
theorem walkStatement_ext (cfg : Config) (st : Statement) (s : WriterState) :
    Extends s (walkStatement cfg s st) := by
  cases st with
  | classDef name ds args body =>
      simp only [walkStatement]
      split
      case isFalse => exact extends_rfl s
      case isTrue h =>
        have hcb := classCb_extends cfg body (fun t => walkSuite_ext cfg body t)
        obtain ⟨Δ3, fb, heq, -⟩ := body_run_of_extends _ hcb
          (emitLine (emitDecorators { s with emittedSuite := true } ds) (classHeaderLine name args))
        rw [emitSuite_run _ _ Δ3 fb heq]
        refine ⟨by simp [emitLine, emitDecorators_eq],
          by simp [emitLine, emitDecorators_eq],
          by simp [emitLine, emitDecorators_eq],
          (ds.map fun d => (s.indentAmount, decoratorLine d))
            ++ [(s.indentAmount, classHeaderLine name args)]
            ++ (Δ3 ++ (if fb then [] else [(s.indentAmount + 1, str "...")]))
            ++ [(s.indentAmount, []), (s.indentAmount, [])], ?_,
          fun _ => Or.inr (by simp)⟩
        simp [emitLine, emitDecorators_eq, List.append_assoc]
  | functionDef name isAsync ds params rta body =>
      simp only [walkStatement]
      split
      case isFalse => exact extends_rfl s
      case isTrue h =>
        have hcb := funcCb_extends cfg body (fun t => walkSuite_ext cfg body t)
        obtain ⟨Δ3, fb, heq, -⟩ := body_run_of_extends _ hcb
          (emitLine (emitDecorators { s with emittedSuite := true } ds)
            (functionHeaderLine name isAsync params rta))
        rw [emitSuite_run _ _ Δ3 fb heq]
        refine ⟨by simp [emitLine, emitDecorators_eq],
          by simp [emitLine, emitDecorators_eq],
          by simp [emitLine, emitDecorators_eq],
          (ds.map fun d => (s.indentAmount, decoratorLine d))
            ++ [(s.indentAmount, functionHeaderLine name isAsync params rta)]
            ++ (Δ3 ++ (if fb then [] else [(s.indentAmount + 1, str "...")]))
            ++ [(s.indentAmount, [])], ?_,
          fun _ => Or.inr (by simp)⟩
        simp [emitLine, emitDecorators_eq, List.append_assoc]
  | importStmt lst =>
      simp only [walkStatement]
      split
      · exact extends_rfl s
      · exact emitLine_extends s _
  | importFrom m wild imports =>
      simp only [walkStatement]
      split
      · exact extends_rfl s
      · exact emitLine_extends s _

/-- Walking a suite only appends to the buffer and restores indentation and
nesting counts. -/
theorem walkSuite_ext (cfg : Config) (su : Suite) (s : WriterState) :
    Extends s (walkSuite cfg s su) := by
  cases su with
  | nil =>
      simp only [walkSuite]
      exact extends_rfl s
  | cons st rest =>
      simp only [walkSuite]
      exact extends_trans (walkStatement_ext cfg st s) (walkSuite_ext cfg rest _)

end

/-- Inversion of the class-suite callback: from the value of the whole
callback, recover the value of the walk of the children (the callback only
re-decrements the class nesting count). -/
theorem classCb_inv (cfg : Config) (body : Suite) (u R : WriterState)
    (h : (let t1 := { u with classNestCount := u.classNestCount + 1 }
          let t2 := walkSuite cfg t1 body
          { t2 with classNestCount := t2.classNestCount - 1 }) = R) :
    walkSuite cfg { u with classNestCount := u.classNestCount + 1 } body
      = { R with classNestCount := u.classNestCount + 1 } := by
  obtain ⟨hi, hc, hf, Δ, hb, -⟩ :=
    walkSuite_ext cfg body { u with classNestCount := u.classNestCount + 1 }
  simp only [] at h
  apply WriterState.ext
  · simpa using congrArg WriterState.indentAmount h
  · simpa using congrArg WriterState.buffer h
  · simpa using hc
  · simpa using congrArg WriterState.functionNestCount h
  · simpa using congrArg WriterState.emittedSuite h

/-- Inversion of the function-suite callback. -/
theorem funcCb_inv (cfg : Config) (body : Suite) (u R : WriterState)
    (h : (let t1 := { u with functionNestCount := u.functionNestCount + 1 }
          let t2 := walkSuite cfg t1 body
          { t2 with functionNestCount := t2.functionNestCount - 1 }) = R) :
    walkSuite cfg { u with functionNestCount := u.functionNestCount + 1 } body
      = { R with functionNestCount := u.functionNestCount + 1 } := by
  obtain ⟨hi, hc, hf, Δ, hb, -⟩ :=
    walkSuite_ext cfg body { u with functionNestCount := u.functionNestCount + 1 }
  simp only [] at h
  apply WriterState.ext
  · simpa using congrArg WriterState.indentAmount h
  · simpa using congrArg WriterState.buffer h
  · simpa using congrArg WriterState.classNestCount h
  · simpa using hf
  · simpa using congrArg WriterState.emittedSuite h

/-- Full evaluation of `visitClass` on an accepted class: decorators,
header, suite (children walked at one more indent and class nesting, plus the
placeholder when they emitted nothing), and the two trailing blank lines. -/
theorem classDef_run (cfg : Config) (s : WriterState) (name : Str)
    (ds : List DecoratorNode) (args : List ArgumentNode) (body : Suite)
    (h : rejectedName cfg name = false) :
    ∃ Δb fb,
      walkSuite cfg (classBodyStart s ds name args) body
        = { classBodyStart s ds name args with
            buffer := (classBodyStart s ds name args).buffer ++ Δb
            emittedSuite := fb } ∧
      (fb = true → Δb ≠ []) ∧
      walkStatement cfg s (Statement.classDef name ds args body)
        = { s with emittedSuite := true
                   buffer := (classBodyStart s ds name args).buffer ++ Δb
                     ++ (if fb then [] else [(s.indentAmount + 1, str "...")])
                     ++ [(s.indentAmount, []), (s.indentAmount, [])] } := by
  set s3 := emitLine (emitDecorators { s with emittedSuite := true } ds)
    (classHeaderLine name args) with hs3def
  have hcb := classCb_extends cfg body (fun t => walkSuite_ext cfg body t)
  obtain ⟨Δ3, fb, heq, hne⟩ := body_run_of_extends _ hcb s3
  have hws := classCb_inv cfg body
    { { s3 with indentAmount := s3.indentAmount + 1 } with emittedSuite := false } _ heq
  have hstart :
      ({ { { s3 with indentAmount := s3.indentAmount + 1 } with emittedSuite := false }
          with classNestCount :=
            ({ { s3 with indentAmount := s3.indentAmount + 1 }
              with emittedSuite := false } : WriterState).classNestCount + 1 } : WriterState)
        = classBodyStart s ds name args := by
    apply WriterState.ext <;> simp [classBodyStart, hs3def, emitLine, emitDecorators_eq]
  rw [hstart] at hws
  refine ⟨Δ3, fb, ?_, hne, ?_⟩
  · rw [hws]
    apply WriterState.ext <;>
      simp [classBodyStart, hs3def, emitLine, emitDecorators_eq, List.append_assoc]
  · simp only [walkStatement]
    rw [if_pos h, ← hs3def, emitSuite_run _ _ Δ3 fb heq]
    apply WriterState.ext <;>
      simp [classBodyStart, hs3def, emitLine, emitDecorators_eq, List.append_assoc]

/-- Full evaluation of `visitFunction` on an accepted top-level function:
decorators, header, suite, and the single trailing blank line. -/
theorem funcDef_run (cfg : Config) (s : WriterState) (name : Str) (isAsync : Bool)
    (ds : List DecoratorNode) (params : List ParameterNode)
    (rta : Option ExpressionNode) (body : Suite)
    (h0 : s.functionNestCount = 0) (h : rejectedName cfg name = false) :
    ∃ Δb fb,
      walkSuite cfg (funcBodyStart s ds name isAsync params rta) body
        = { funcBodyStart s ds name isAsync params rta with
            buffer := (funcBodyStart s ds name isAsync params rta).buffer ++ Δb
            emittedSuite := fb } ∧
      (fb = true → Δb ≠ []) ∧
      walkStatement cfg s (Statement.functionDef name isAsync ds params rta body)
        = { s with emittedSuite := true
                   buffer := (funcBodyStart s ds name isAsync params rta).buffer ++ Δb
                     ++ (if fb then [] else [(s.indentAmount + 1, str "...")])
                     ++ [(s.indentAmount, [])] } := by
  set s3 := emitLine (emitDecorators { s with emittedSuite := true } ds)
    (functionHeaderLine name isAsync params rta) with hs3def
  have hcb := funcCb_extends cfg body (fun t => walkSuite_ext cfg body t)
  obtain ⟨Δ3, fb, heq, hne⟩ := body_run_of_extends _ hcb s3
  have hws := funcCb_inv cfg body
    { { s3 with indentAmount := s3.indentAmount + 1 } with emittedSuite := false } _ heq
  have hstart :
      ({ { { s3 with indentAmount := s3.indentAmount + 1 } with emittedSuite := false }
          with functionNestCount :=
            ({ { s3 with indentAmount := s3.indentAmount + 1 }
              with emittedSuite := false } : WriterState).functionNestCount + 1 } : WriterState)
        = funcBodyStart s ds name isAsync params rta := by
    apply WriterState.ext <;> simp [funcBodyStart, hs3def, emitLine, emitDecorators_eq]
  rw [hstart] at hws
  refine ⟨Δ3, fb, ?_, hne, ?_⟩
  · rw [hws]
    apply WriterState.ext <;>
      simp [funcBodyStart, hs3def, emitLine, emitDecorators_eq, List.append_assoc]
  · simp only [walkStatement]
    rw [if_pos ⟨h0, h⟩, ← hs3def, emitSuite_run _ _ Δ3 fb heq]
    apply WriterState.ext <;>
      simp [funcBodyStart, hs3def, emitLine, emitDecorators_eq, List.append_assoc]

/-- A filtered-out statement leaves the writer state unchanged: nothing is
emitted and nothing of its subtree is visited. -/
theorem walkStatement_filtered (cfg : Config) (st : Statement) (s : WriterState)
    (h : filteredStmt cfg s.functionNestCount s.classNestCount st = true) :
    walkStatement cfg s st = s := by
  cases st with
  | classDef name ds args body =>
      simp only [filteredStmt] at h
      simp only [walkStatement]
      rw [if_neg]
      simp [h]
  | functionDef name isAsync ds params rta body =>
      simp only [filteredStmt, Bool.or_eq_true, bne_iff_ne] at h
      simp only [walkStatement]
      rw [if_neg]
      rintro ⟨h1, h2⟩
      rcases h with h | h
      · exact h h1
      · rw [h2] at h
        exact Bool.false_ne_true h
  | importStmt lst =>
      simp only [filteredStmt, Bool.or_eq_true, bne_iff_ne] at h
      simp only [walkStatement]
      rw [if_pos]
      rcases h with h | h
      · exact Or.inl (Nat.pos_of_ne_zero h)
      · exact Or.inr (Nat.pos_of_ne_zero h)
  | importFrom m wild imports =>
      simp only [filteredStmt, Bool.or_eq_true, bne_iff_ne] at h
      simp only [walkStatement]
      rw [if_pos]
      rcases h with h | h
      · exact Or.inl (Nat.pos_of_ne_zero h)
      · exact Or.inr (Nat.pos_of_ne_zero h)

/-- A suite all of whose statements are filtered out walks to the identity. -/
theorem walkSuite_filtered (cfg : Config) (su : Suite) (s : WriterState)
    (h : allFiltered cfg s.functionNestCount s.classNestCount su = true) :
    walkSuite cfg s su = s := by
  cases su with
  | nil => simp only [walkSuite]
  | cons st rest =>
      simp only [allFiltered, Bool.and_eq_true] at h
      simp only [walkSuite]
      rw [walkStatement_filtered cfg st s h.1]
      exact walkSuite_filtered cfg rest s h.2

/-- A suite of function definitions only is entirely filtered out whenever
the function nesting count is positive. -/
theorem allFunctionDefs_filtered (cfg : Config) (su : Suite) (fnNest clsNest : Nat)
    (h : allFunctionDefs su = true) (hfn : fnNest ≠ 0) :
    allFiltered cfg fnNest clsNest su = true := by
  cases su with
  | nil => rfl
  | cons st rest =>
      simp only [allFunctionDefs, Bool.and_eq_true] at h
      simp only [allFiltered, Bool.and_eq_true]
      refine ⟨?_, allFunctionDefs_filtered cfg rest fnNest clsNest h.2 hfn⟩
      cases st with
      | functionDef name isAsync ds params rta body =>
          simp [filteredStmt, bne_iff_ne, hfn]
      | classDef name ds args body => simp at h
      | importStmt lst => simp at h
      | importFrom m wild imports => simp at h

/-- Claim C4: `_emitSuite` restores the suite-emptiness flag: after any call,
`_emittedSuite` equals its value at the moment of the call, whatever the
nested suite body did, so emptiness tracking is scoped per suite. -/
theorem C4_emitSuite_scoped (callback : WriterState → WriterState) (s : WriterState) :
    (emitSuite callback s).emittedSuite = s.emittedSuite := rfl

/-- Claim C3 (counterexample): for a convention-private class holding a
public function, `visitClass` leaves the state untouched — the class body is
not walked.  Had the body been walked with per-child filtering (as the claim
states), the public child `f` would have produced its declaration lines, as
the second conjunct shows. -/
theorem C3_counterexample :
    walkStatement cfg0 initialState privClassStmt = initialState ∧
    (walkSuite cfg0 initialState privClassBody).buffer
      = [(0, str "def f():"), (1, str "..."), (0, [])] ∧
    (walkStatement cfg0 initialState privClassStmt).buffer
      ≠ (walkSuite cfg0 initialState privClassBody).buffer := by
  refine ⟨by decide, by decide, by decide⟩

/-- Claim C3 (amended): when a class declaration is rejected by the
visibility filter, its body is not walked at all: the visit leaves the
writer state unchanged, so no descendant of the rejected class can emit
anything; per-child filtering happens only inside accepted classes. -/
theorem C3_amended (cfg : Config) (s : WriterState) (name : Str)
    (ds : List DecoratorNode) (args : List ArgumentNode) (body : Suite)
    (h : rejectedName cfg name = true) :
    walkStatement cfg s (Statement.classDef name ds args body) = s := by
  simp only [walkStatement]
  rw [if_neg]
  simp [h]

/-- Witness for `C3_amended` at a concrete private class. -/
theorem C3_amended_witness :
    walkStatement cfg0 initialState privClassStmt = initialState :=
  C3_amended cfg0 initialState (str "_C") [] [] privClassBody (by decide)

/-- Claim C7: a defaulted parameter is redacted to an ellipsis — rendered
`name: Type = ...` with an annotation and `name=...` without one — and the
rendering never depends on the default expression itself. -/
theorem C7_default_redaction :
    (∀ (n : Str) (ty d : ExpressionNode),
      printParameter { category := ParameterCategory.simple, name := some n,
                       typeAnnot := some ty, defaultValue := some d }
        = n ++ str ": " ++ ty.text ++ str " = ...") ∧
    (∀ (n : Str) (d : ExpressionNode),
      printParameter { category := ParameterCategory.simple, name := some n,
                       typeAnnot := none, defaultValue := some d }
        = n ++ str "=...") ∧
    (∀ (p : ParameterNode) (d1 d2 : ExpressionNode),
      printParameter { p with defaultValue := some d1 }
        = printParameter { p with defaultValue := some d2 }) := by
  refine ⟨?_, ?_, ?_⟩
  · intro n ty d
    simp [printParameter, printExpression, List.append_assoc]
  · intro n d
    simp [printParameter]
  · intro p d1 d2
    rfl

/-- Claim C9: the engine is deterministic — two runs on the same parse tree
and the same formatting preferences produce identical output text. -/
theorem C9_deterministic (cfg1 cfg2 : Config) (t1 t2 : Suite)
    (h1 : cfg1 = cfg2) (h2 : t1 = t2) :
    stubText cfg1 t1 = stubText cfg2 t2 := by
  rw [h1, h2]

/-- Witness for `C9_deterministic` on a concrete module. -/
theorem C9_witness :
    stubText cfg0 (Suite.cons clsWithPrivMember Suite.nil)
      = stubText cfg0 (Suite.cons clsWithPrivMember Suite.nil) :=
  C9_deterministic cfg0 cfg0 _ _ rfl rfl

/-- Claim C10: a wildcard from-import at module scope emits exactly the one
line `from <module> import *`, independently of the node's import list. -/
theorem C10_wildcard_import (cfg : Config) (s : WriterState) (m : ModuleNameNode)
    (imports : List ImportFromAsNode)
    (h1 : s.classNestCount = 0) (h2 : s.functionNestCount = 0) :
    walkStatement cfg s (Statement.importFrom m true imports)
      = emitLine s (str "from " ++ printModuleName m ++ str " import *") := by
  simp only [walkStatement]
  rw [if_neg]
  · have hline : importFromLine m true imports
        = str "from " ++ printModuleName m ++ str " import *" := by
      simp only [importFromLine, if_pos]
      rw [List.append_assoc]
      congr 1
    rw [hline]
  · rintro (h | h) <;> omega

/-- Witness for `C10_wildcard_import` on a concrete wildcard import. -/
theorem C10_witness :
    walkStatement cfg0 initialState
        (Statement.importFrom osModule true [{ name := str "path", aliasName := none }])
      = emitLine initialState (str "from os import *") :=
  (C10_wildcard_import cfg0 initialState osModule
    [{ name := str "path", aliasName := none }] rfl rfl).trans (by decide)

/-- Claim C5: a function visited while the function nesting count is
positive (i.e. inside another function's body) emits nothing and is not
recursed into, whatever its name; consequently an accepted function whose
body consists only of function definitions renders with the bare placeholder
suite — none of the inner functions appears. -/
theorem C5_nested_function_erasure (cfg : Config) (s : WriterState) :
    (∀ name isAsync ds params rta body,
      s.functionNestCount ≠ 0 →
      walkStatement cfg s (Statement.functionDef name isAsync ds params rta body) = s) ∧
    (∀ name isAsync ds params rta body,
      s.functionNestCount = 0 → rejectedName cfg name = false →
      allFunctionDefs body = true →
      (walkStatement cfg s (Statement.functionDef name isAsync ds params rta body)).buffer
        = s.buffer ++ (ds.map fun d => (s.indentAmount, decoratorLine d))
          ++ [(s.indentAmount, functionHeaderLine name isAsync params rta)]
          ++ [(s.indentAmount + 1, str "...")] ++ [(s.indentAmount, [])]) := by
  constructor
  · intro name isAsync ds params rta body hfn
    simp only [walkStatement]
    rw [if_neg]
    rintro ⟨h1, h2⟩
    exact hfn h1
  · intro name isAsync ds params rta body h0 hacc hfuncs
    obtain ⟨Δb, fb, hws, hne, heval⟩ :=
      funcDef_run cfg s name isAsync ds params rta body h0 hacc
    have hall : allFiltered cfg (funcBodyStart s ds name isAsync params rta).functionNestCount
        (funcBodyStart s ds name isAsync params rta).classNestCount body = true := by
      apply allFunctionDefs_filtered cfg body _ _ hfuncs
      simp [funcBodyStart]
    have hid := walkSuite_filtered cfg body (funcBodyStart s ds name isAsync params rta) hall
    rw [hid] at hws
    have hbuf := congrArg WriterState.buffer hws
    have hflag := congrArg WriterState.emittedSuite hws
    simp only [funcBodyStart] at hbuf hflag
    have hΔ : Δb = [] := by
      have h2 : (funcBodyStart s ds name isAsync params rta).buffer ++ []
          = (funcBodyStart s ds name isAsync params rta).buffer ++ Δb := by
        simpa [funcBodyStart] using hbuf
      simpa using (List.append_cancel_left h2).symm
    have hfb : fb = false := by
      simpa [funcBodyStart] using hflag.symm
    rw [heval, hΔ, hfb]
    simp [funcBodyStart, List.append_assoc]

/-- Witness for `C5_nested_function_erasure`: a function visited at nesting 1
is erased, and an outer function holding a nested public function renders
with only the placeholder body. -/
theorem C5_witness :
    walkStatement cfg0 { initialState with functionNestCount := 1 }
        (Statement.functionDef (str "g") false [] [] none Suite.nil)
      = { initialState with functionNestCount := 1 } ∧
    (walkStatement cfg0 initialState outerFuncStmt).buffer
      = [(0, str "def f():"), (1, str "..."), (0, [])] := by
  constructor
  · exact (C5_nested_function_erasure cfg0 { initialState with functionNestCount := 1 }).1
      (str "g") false [] [] none Suite.nil (by decide)
  · have h := (C5_nested_function_erasure cfg0 initialState).2
      (str "f") false [] [] none (Suite.cons innerFuncStmt Suite.nil)
      rfl (by decide) (by decide)
    exact h.trans (by decide)

/-- Claim C6 (counterexample): in a class header, a starred (unpack)
base-class argument is rendered without its `*` sigil — `class C(*bases)`
becomes `class C(bases):` — while the argument-rendering rule
(`_printArgument`, used for decorators) would put the sigil first. -/
theorem C6_counterexample :
    (walkStatement cfg0 initialState starClassStmt).buffer
      = [(0, str "class C(bases):"), (1, str "..."), (0, []), (0, [])] ∧
    printArgument starArg = str "*bases" ∧
    classArgText starArg ≠ printArgument starArg := by
  refine ⟨by decide, by decide, by decide⟩

/-- Claim C6 (amended): each base/keyword argument of an emitted class
header renders as the keyword-name prefix (if present) followed by the value
expression's text — the unpack sigil is omitted in class headers; the full
sigil-name-value order is used by `_printArgument`, i.e. for decorator call
arguments. -/
theorem C6_amended (cfg : Config) (s : WriterState) (name : Str)
    (ds : List DecoratorNode) (args : List ArgumentNode) (body : Suite)
    (h : rejectedName cfg name = false) (hargs : args.length > 0) :
    (∃ tail, (walkStatement cfg s (Statement.classDef name ds args body)).buffer
      = s.buffer ++ (ds.map fun d => (s.indentAmount, decoratorLine d))
        ++ [(s.indentAmount, str "class " ++ name ++ str "("
              ++ List.intercalate (str ", ") (args.map classArgText) ++ str "):")]
        ++ tail) ∧
    (∀ a : ArgumentNode, classArgText a
      = (match a.name with
          | some n => n ++ str "="
          | none => []) ++ a.valueExpression.text) ∧
    (∀ a : ArgumentNode, printArgument a
      = (match a.argumentCategory with
          | ArgumentCategory.simple => []
          | ArgumentCategory.unpackedList => str "*"
          | ArgumentCategory.unpackedDictionary => str "**")
        ++ ((match a.name with
          | some n => n ++ str "="
          | none => []) ++ a.valueExpression.text)) := by
  refine ⟨?_, fun a => rfl, fun a => by simp [printArgument, printExpression, List.append_assoc]⟩
  obtain ⟨Δb, fb, hws, hne, heval⟩ := classDef_run cfg s name ds args body h
  refine ⟨Δb ++ (if fb then [] else [(s.indentAmount + 1, str "...")])
    ++ [(s.indentAmount, []), (s.indentAmount, [])], ?_⟩
  rw [heval]
  have hhd : classHeaderLine name args
      = str "class " ++ name ++ str "("
          ++ List.intercalate (str ", ") (args.map classArgText) ++ str "):" := by
    simp only [classHeaderLine, if_pos hargs]
    simp [List.append_assoc]
    congr 1
  rw [← hhd]
  simp [classBodyStart, List.append_assoc]

/-- Claim C1: every suite opened by `_emitSuite` for an accepted class or
function contains at least one line between the header and the trailing
blank lines; in particular, a class all of whose members are filtered out
renders its body as exactly one `...` line one indent level below the
header. -/
theorem C1_suite_nonempty (cfg : Config) (s : WriterState) :
    (∀ name ds args body, rejectedName cfg name = false →
      ∃ suiteLines,
        (walkStatement cfg s (Statement.classDef name ds args body)).buffer
          = s.buffer ++ (ds.map fun d => (s.indentAmount, decoratorLine d))
            ++ [(s.indentAmount, classHeaderLine name args)]
            ++ suiteLines ++ [(s.indentAmount, []), (s.indentAmount, [])] ∧
        suiteLines ≠ [] ∧
        (allFiltered cfg s.functionNestCount (s.classNestCount + 1) body = true →
          suiteLines = [(s.indentAmount + 1, str "...")])) ∧
    (∀ name isAsync ds params rta body,
      s.functionNestCount = 0 → rejectedName cfg name = false →
      ∃ suiteLines,
        (walkStatement cfg s (Statement.functionDef name isAsync ds params rta body)).buffer
          = s.buffer ++ (ds.map fun d => (s.indentAmount, decoratorLine d))
            ++ [(s.indentAmount, functionHeaderLine name isAsync params rta)]
            ++ suiteLines ++ [(s.indentAmount, [])] ∧
        suiteLines ≠ []) := by
  constructor
  · intro name ds args body h
    obtain ⟨Δb, fb, hws, hne, heval⟩ := classDef_run cfg s name ds args body h
    refine ⟨Δb ++ (if fb then [] else [(s.indentAmount + 1, str "...")]), ?_, ?_, ?_⟩
    · rw [heval]
      simp [classBodyStart, List.append_assoc]
    · cases hfb : fb with
      | false => simp
      | true => simp [hne hfb]
    · intro hall
      have hall' : allFiltered cfg (classBodyStart s ds name args).functionNestCount
          (classBodyStart s ds name args).classNestCount body = true := by
        simpa [classBodyStart] using hall
      have hid := walkSuite_filtered cfg body (classBodyStart s ds name args) hall'
      rw [hid] at hws
      have hbuf := congrArg WriterState.buffer hws
      have hflag := congrArg WriterState.emittedSuite hws
      have hΔ : Δb = [] := by
        have h2 : (classBodyStart s ds name args).buffer ++ []
            = (classBodyStart s ds name args).buffer ++ Δb := by
          simpa using hbuf
        simpa using (List.append_cancel_left h2).symm
      have hfb : fb = false := by
        simpa [classBodyStart] using hflag.symm
      rw [hΔ, hfb]
      simp
  · intro name isAsync ds params rta body h0 h
    obtain ⟨Δb, fb, hws, hne, heval⟩ :=
      funcDef_run cfg s name isAsync ds params rta body h0 h
    refine ⟨Δb ++ (if fb then [] else [(s.indentAmount + 1, str "...")]), ?_, ?_⟩
    · rw [heval]
      simp [funcBodyStart, List.append_assoc]
    · cases hfb : fb with
      | false => simp
      | true => simp [hne hfb]

/-- Witness for `C1_suite_nonempty`: a class whose only member is private
and a public function with an empty body. -/
theorem C1_witness :
    (∃ suiteLines,
      (walkStatement cfg0 initialState clsWithPrivMember).buffer
        = initialState.buffer
          ++ (([] : List DecoratorNode).map fun d => (initialState.indentAmount, decoratorLine d))
          ++ [(initialState.indentAmount, classHeaderLine (str "C") [])]
          ++ suiteLines ++ [(initialState.indentAmount, []), (initialState.indentAmount, [])] ∧
      suiteLines ≠ [] ∧
      (allFiltered cfg0 initialState.functionNestCount (initialState.classNestCount + 1)
          (Suite.cons privFuncStmt Suite.nil) = true →
        suiteLines = [(initialState.indentAmount + 1, str "...")])) ∧
    (∃ suiteLines,
      (walkStatement cfg0 initialState innerFuncStmt).buffer
        = initialState.buffer
          ++ (([] : List DecoratorNode).map fun d => (initialState.indentAmount, decoratorLine d))
          ++ [(initialState.indentAmount, functionHeaderLine (str "g") false [] none)]
          ++ suiteLines ++ [(initialState.indentAmount, [])] ∧
      suiteLines ≠ []) :=
  ⟨(C1_suite_nonempty cfg0 initialState).1 (str "C") [] []
      (Suite.cons privFuncStmt Suite.nil) (by decide),
   (C1_suite_nonempty cfg0 initialState).2 (str "g") false [] [] none
      Suite.nil rfl (by decide)⟩

/-- Claim C8: after the suite of an emitted class exactly two blank lines
are appended, and after the suite of an emitted function exactly one; the
separator entries carry no content. -/
theorem C8_blank_separators (cfg : Config) (s : WriterState) :
    (∀ name ds args body, rejectedName cfg name = false →
      ∃ suiteLines,
        (walkStatement cfg s (Statement.classDef name ds args body)).buffer
          = s.buffer ++ (ds.map fun d => (s.indentAmount, decoratorLine d))
            ++ [(s.indentAmount, classHeaderLine name args)]
            ++ suiteLines ++ [(s.indentAmount, []), (s.indentAmount, [])]) ∧
    (∀ name isAsync ds params rta body,
      s.functionNestCount = 0 → rejectedName cfg name = false →
      ∃ suiteLines,
        (walkStatement cfg s (Statement.functionDef name isAsync ds params rta body)).buffer
          = s.buffer ++ (ds.map fun d => (s.indentAmount, decoratorLine d))
            ++ [(s.indentAmount, functionHeaderLine name isAsync params rta)]
            ++ suiteLines ++ [(s.indentAmount, [])]) := by
  constructor
  · intro name ds args body h
    obtain ⟨Δb, fb, hws, hne, heval⟩ := classDef_run cfg s name ds args body h
    refine ⟨Δb ++ (if fb then [] else [(s.indentAmount + 1, str "...")]), ?_⟩
    rw [heval]
    simp [classBodyStart, List.append_assoc]
  · intro name isAsync ds params rta body h0 h
    obtain ⟨Δb, fb, hws, hne, heval⟩ :=
      funcDef_run cfg s name isAsync ds params rta body h0 h
    refine ⟨Δb ++ (if fb then [] else [(s.indentAmount + 1, str "...")]), ?_⟩
    rw [heval]
    simp [funcBodyStart, List.append_assoc]

/-- Witness for `C8_blank_separators` on a concrete class and function. -/
theorem C8_witness :
    (∃ suiteLines,
      (walkStatement cfg0 initialState clsWithPrivMember).buffer
        = initialState.buffer
          ++ (([] : List DecoratorNode).map fun d => (initialState.indentAmount, decoratorLine d))
          ++ [(initialState.indentAmount, classHeaderLine (str "C") [])]
          ++ suiteLines ++ [(initialState.indentAmount, []), (initialState.indentAmount, [])]) ∧
    (∃ suiteLines,
      (walkStatement cfg0 initialState innerFuncStmt).buffer
        = initialState.buffer
          ++ (([] : List DecoratorNode).map fun d => (initialState.indentAmount, decoratorLine d))
          ++ [(initialState.indentAmount, functionHeaderLine (str "g") false [] none)]
          ++ suiteLines ++ [(initialState.indentAmount, [])]) :=
  ⟨(C8_blank_separators cfg0 initialState).1 (str "C") [] []
      (Suite.cons privFuncStmt Suite.nil) (by decide),
   (C8_blank_separators cfg0 initialState).2 (str "g") false [] [] none
      Suite.nil rfl (by decide)⟩

/-- Witness for `C6_amended` at a concrete class with a starred argument. -/
theorem C6_amended_witness :
    ∃ tail, (walkStatement cfg0 initialState starClassStmt).buffer
      = initialState.buffer
        ++ (([] : List DecoratorNode).map fun d => (initialState.indentAmount, decoratorLine d))
        ++ [(initialState.indentAmount, str "class " ++ str "C" ++ str "("
              ++ List.intercalate (str ", ") ([starArg].map classArgText) ++ str "):")]
        ++ tail :=
  (C6_amended cfg0 initialState (str "C") [] [starArg] Suite.nil (by decide) (by decide)).1

/-- Prefix testing is invariant under a common prefix. -/
theorem headsWith_append_same (x u v : Str) :
    headsWith (x ++ u) (x ++ v) = headsWith u v := by
  induction x with
  | nil => rfl
  | cons a as ih => simp [headsWith, ih]

/-- A successful prefix test forces equal heads. -/
theorem headsWith_head {a b : Char} {p c : Str}
    (h : headsWith (a :: p) (b :: c) = true) : a = b := by
  simp only [headsWith, Bool.and_eq_true, beq_iff_eq] at h
  exact h.1

/-- A successful prefix test continues on the tails. -/
theorem headsWith_tail {a b : Char} {p c : Str}
    (h : headsWith (a :: p) (b :: c) = true) : headsWith p c = true := by
  simp only [headsWith, Bool.and_eq_true] at h
  exact h.2

/-- A pattern ending in one extra character never matches the empty line. -/
theorem headsWith_snoc_nil (x : Str) (d : Char) : headsWith (x ++ [d]) [] = false := by
  cases x <;> rfl

/-- Two identifier-made names followed by a non-identifier delimiter can only
match as prefixes when they are the same name. -/
theorem ident_clash (q : Char → Bool) :
    ∀ (n m rest : Str) (d : Char),
      headsWith (n ++ [d]) (m ++ rest) = true →
      n.all q = true → m.all q = true → q d = false →
      (∀ r rs, rest = r :: rs → q r = false) →
      n = m := by
  intro n
  induction n with
  | nil =>
      intro m rest d h hn hm hd hrest
      cases m with
      | nil => rfl
      | cons b ms =>
          have hdb : d = b := headsWith_head (by simpa using h)
          simp only [List.all_cons, Bool.and_eq_true] at hm
          rw [hdb, hm.1] at hd
          exact absurd hd (by simp)
  | cons a ns ih =>
      intro m rest d h hn hm hd hrest
      cases m with
      | nil =>
          simp only [List.nil_append] at h
          cases rest with
          | nil => simp [headsWith] at h
          | cons r rs =>
              have har : a = r := headsWith_head (by simpa using h)
              have hr : identChar r = false ∨ q r = false := Or.inr (hrest r rs rfl)
              simp only [List.all_cons, Bool.and_eq_true] at hn
              have := hrest r rs rfl
              rw [← har, hn.1] at this
              exact absurd this (by simp)
      | cons b ms =>
          have hab : a = b := headsWith_head (by simpa using h)
          have ht : headsWith (ns ++ [d]) (ms ++ rest) = true :=
            headsWith_tail (by simpa using h)
          simp only [List.all_cons, Bool.and_eq_true] at hn hm
          rw [ih ms rest d ht hn.2 hm.2 hd hrest, hab]

/-- A line whose first character is not `c` is no class declaration line. -/
theorem classDecl_false_of_head (n : Str) (a : Char) (cs : Str) (h : a ≠ 'c') :
    classDeclLineFor n (a :: cs) = false := by
  have hc : ('c' == a) = false := beq_eq_false_iff_ne.mpr (Ne.symm h)
  unfold classDeclLineFor
  have e1 : (str "class " ++ n) ++ str ":" = 'c' :: ((str "lass " ++ n) ++ str ":") := rfl
  have e2 : (str "class " ++ n) ++ str "(" = 'c' :: ((str "lass " ++ n) ++ str "(") := rfl
  rw [show str "class " ++ n ++ str ":" = 'c' :: ((str "lass " ++ n) ++ str ":") from rfl,
    show str "class " ++ n ++ str "(" = 'c' :: ((str "lass " ++ n) ++ str "(") from rfl]
  simp [headsWith, hc]

/-- A line whose first character is neither `d` nor `a` is no function
declaration line. -/
theorem funcDecl_false_of_head (n : Str) (a : Char) (cs : Str)
    (h1 : a ≠ 'd') (h2 : a ≠ 'a') :
    funcDeclLineFor n (a :: cs) = false := by
  have hd : ('d' == a) = false := beq_eq_false_iff_ne.mpr (Ne.symm h1)
  have ha : ('a' == a) = false := beq_eq_false_iff_ne.mpr (Ne.symm h2)
  unfold funcDeclLineFor
  rw [show str "def " ++ n ++ str "(" = 'd' :: ((str "ef " ++ n) ++ str "(") from rfl,
    show str "async def " ++ n ++ str "(" = 'a' :: ((str "sync def " ++ n) ++ str "(") from rfl]
  simp [headsWith, hd, ha]

/-- The empty line is no class declaration line. -/
theorem classDecl_false_nil (n : Str) : classDeclLineFor n [] = false := by
  unfold classDeclLineFor
  rw [show str "class " ++ n ++ str ":" = 'c' :: ((str "lass " ++ n) ++ str ":") from rfl,
    show str "class " ++ n ++ str "(" = 'c' :: ((str "lass " ++ n) ++ str "(") from rfl]
  rfl

/-- The empty line is no function declaration line. -/
theorem funcDecl_false_nil (n : Str) : funcDeclLineFor n [] = false := by
  unfold funcDeclLineFor
  rw [show str "def " ++ n ++ str "(" = 'd' :: ((str "ef " ++ n) ++ str "(") from rfl,
    show str "async def " ++ n ++ str "(" = 'a' :: ((str "sync def " ++ n) ++ str "(") from rfl]
  rfl

/-- A class header line for an accepted identifier is not a class
declaration line for a different identifier. -/
theorem classDecl_false_of_header (n nA : Str) (args : List ArgumentNode)
    (hn : n.all identChar = true) (hA : nA.all identChar = true) (hne : n ≠ nA) :
    classDeclLineFor n (classHeaderLine nA args) = false := by
  have hform : ∃ rest, classHeaderLine nA args = str "class " ++ (nA ++ rest) ∧
      ∀ r rs, rest = r :: rs → identChar r = false := by
    unfold classHeaderLine
    split
    · refine ⟨(str "(" ++ List.intercalate (str ", ") (args.map classArgText) ++ str ")")
        ++ str ":", by simp [List.append_assoc], ?_⟩
      intro r rs hr
      rw [show (str "(" ++ List.intercalate (str ", ") (args.map classArgText) ++ str ")")
          ++ str ":"
          = '(' :: ((str "" ++ List.intercalate (str ", ") (args.map classArgText) ++ str ")")
            ++ str ":") from rfl] at hr
      injection hr with hr1 hr2
      rw [← hr1]
      decide
    · refine ⟨str ":", by simp, ?_⟩
      intro r rs hr
      rw [show (str ":" : Str) = ':' :: [] from rfl] at hr
      injection hr with hr1 hr2
      rw [← hr1]
      decide
  obtain ⟨rest, heq, hrest⟩ := hform
  unfold classDeclLineFor
  rw [heq]
  rw [show str "class " ++ n ++ str ":" = str "class " ++ (n ++ [':']) from by
        simp [List.append_assoc]; rfl,
    show str "class " ++ n ++ str "(" = str "class " ++ (n ++ ['(']) from by
        simp [List.append_assoc]; rfl,
    headsWith_append_same, headsWith_append_same]
  have k1 : headsWith (n ++ [':']) (nA ++ rest) = false := by
    cases hk : headsWith (n ++ [':']) (nA ++ rest)
    · rfl
    · exact absurd (ident_clash identChar n nA rest ':' hk hn hA (by decide) hrest) hne
  have k2 : headsWith (n ++ ['(']) (nA ++ rest) = false := by
    cases hk : headsWith (n ++ ['(']) (nA ++ rest)
    · rfl
    · exact absurd (ident_clash identChar n nA rest '(' hk hn hA (by decide) hrest) hne
  simp [k1, k2]

/-- A function header line for an accepted identifier is not a function
declaration line for a different identifier. -/
theorem funcDecl_false_of_header (n nA : Str) (isAsync : Bool)
    (params : List ParameterNode) (rta : Option ExpressionNode)
    (hn : n.all identChar = true) (hA : nA.all identChar = true) (hne : n ≠ nA) :
    funcDeclLineFor n (functionHeaderLine nA isAsync params rta) = false := by
  obtain ⟨retP, hP⟩ : ∃ retP : Str, functionHeaderLine nA isAsync params rta
      = (if isAsync then str "async " else []) ++ str "def " ++ nA ++ str "("
        ++ List.intercalate (str ", ") (params.map printParameter) ++ str ")"
        ++ retP ++ str ":" := ⟨_, rfl⟩
  obtain ⟨inter, hI⟩ : ∃ inter : Str,
      List.intercalate (str ", ") (params.map printParameter) = inter := ⟨_, rfl⟩
  rw [hI] at hP
  have hrest : ∀ r rs, ('(' :: (inter ++ (str ")" ++ (retP ++ str ":")))) = r :: rs →
      identChar r = false := by
    intro r rs hr
    injection hr with h1 h2
    rw [← h1]
    decide
  cases isAsync with
  | false =>
      have hform : functionHeaderLine nA false params rta
          = str "def " ++ (nA ++ ('(' :: (inter ++ (str ")" ++ (retP ++ str ":"))))) := by
        rw [hP]
        simp [List.append_assoc]
        rfl
      unfold funcDeclLineFor
      rw [hform]
      rw [show str "def " ++ n ++ str "(" = str "def " ++ (n ++ ['(']) from by
            simp [List.append_assoc]; rfl,
        headsWith_append_same]
      have k1 : headsWith (n ++ ['('])
          (nA ++ ('(' :: (inter ++ (str ")" ++ (retP ++ str ":"))))) = false := by
        cases hk : headsWith (n ++ ['('])
            (nA ++ ('(' :: (inter ++ (str ")" ++ (retP ++ str ":")))))
        · rfl
        · exact absurd (ident_clash identChar n nA _ '(' hk hn hA (by decide) hrest) hne
      rw [k1]
      rw [show str "async def " ++ n ++ str "(" = 'a' :: ((str "sync def " ++ n) ++ str "(")
            from rfl,
        show str "def " ++ (nA ++ ('(' :: (inter ++ (str ")" ++ (retP ++ str ":")))))
          = 'd' :: (str "ef " ++ (nA ++ ('(' :: (inter ++ (str ")" ++ (retP ++ str ":"))))))
          from rfl]
      simp [headsWith]
  | true =>
      have hform : functionHeaderLine nA true params rta
          = str "async def " ++ (nA ++ ('(' :: (inter ++ (str ")" ++ (retP ++ str ":"))))) := by
        rw [hP, show (str "async def " : Str) = str "async " ++ str "def " from rfl]
        simp [List.append_assoc]
        rfl
      unfold funcDeclLineFor
      rw [hform]
      rw [show str "async def " ++ n ++ str "(" = str "async def " ++ (n ++ ['(']) from by
            simp [List.append_assoc]; rfl,
        headsWith_append_same]
      have k2 : headsWith (n ++ ['('])
          (nA ++ ('(' :: (inter ++ (str ")" ++ (retP ++ str ":"))))) = false := by
        cases hk : headsWith (n ++ ['('])
            (nA ++ ('(' :: (inter ++ (str ")" ++ (retP ++ str ":")))))
        · rfl
        · exact absurd (ident_clash identChar n nA _ '(' hk hn hA (by decide) hrest) hne
      rw [k2]
      rw [show str "def " ++ n ++ str "(" = 'd' :: ((str "ef " ++ n) ++ str "(") from rfl,
        show str "async def " ++ (nA ++ ('(' :: (inter ++ (str ")" ++ (retP ++ str ":")))))
          = 'a' :: (str "sync def " ++ (nA ++ ('(' :: (inter ++ (str ")" ++ (retP ++ str ":"))))))
          from rfl]
      simp [headsWith]


/-- A function header line never reads as a class declaration line: it
starts with `d` or `a`, never `c`. -/
theorem classDecl_false_of_funcHeader (n nA : Str) (isAsync : Bool)
    (params : List ParameterNode) (rta : Option ExpressionNode) :
    classDeclLineFor n (functionHeaderLine nA isAsync params rta) = false := by
  obtain ⟨retP, hP⟩ : ∃ retP : Str, (match rta with
      | some r => str " -> " ++ printExpression r
      | none => ([] : Str)) = retP := ⟨_, rfl⟩
  have hP2 : functionHeaderLine nA isAsync params rta
      = (if isAsync then str "async " else []) ++ str "def " ++ nA ++ str "("
        ++ List.intercalate (str ", ") (params.map printParameter) ++ str ")"
        ++ retP ++ str ":" := by
    rw [← hP]
    rfl
  cases isAsync with
  | false =>
      rw [hP2]
      rw [show ((if false then str "async " else []) ++ str "def " ++ nA ++ str "("
            ++ List.intercalate (str ", ") (params.map printParameter) ++ str ")"
            ++ retP ++ str ":")
          = 'd' :: ((((((str "ef " ++ nA) ++ str "(")
              ++ List.intercalate (str ", ") (params.map printParameter))
              ++ str ")") ++ retP) ++ str ":") from rfl]
      exact classDecl_false_of_head n 'd' _ (by decide)
  | true =>
      rw [hP2]
      rw [show ((if true then str "async " else []) ++ str "def " ++ nA ++ str "("
            ++ List.intercalate (str ", ") (params.map printParameter) ++ str ")"
            ++ retP ++ str ":")
          = 'a' :: (((((((str "sync " ++ str "def ") ++ nA) ++ str "(")
              ++ List.intercalate (str ", ") (params.map printParameter))
              ++ str ")") ++ retP) ++ str ":") from rfl]
      exact classDecl_false_of_head n 'a' _ (by decide)

mutual

/-- No line appended by a visit is a declaration line for a rejected
identifier `n`: rejected nodes emit nothing at all, and every header that is
emitted carries an accepted name, which cannot collide with `n`. -/
theorem walkStatement_goodLines (cfg : Config) (n : Str) (st : Statement)
    (s : WriterState)
    (hn : isIdent n = true) (hrej : rejectedName cfg n = true)
    (hwf : wfStatement st = true)
    (hbuf : ∀ e ∈ s.buffer, classDeclLineFor n e.2 = false ∧ funcDeclLineFor n e.2 = false) :
    ∀ e ∈ (walkStatement cfg s st).buffer,
      classDeclLineFor n e.2 = false ∧ funcDeclLineFor n e.2 = false := by
  have hnident : n.all identChar = true := by
    simp only [isIdent, Bool.and_eq_true] at hn
    exact hn.2
  cases st with
  | classDef name ds args body =>
      simp only [wfStatement, Bool.and_eq_true] at hwf
      have hnameident : name.all identChar = true := by
        have h1 := hwf.1
        simp only [isIdent, Bool.and_eq_true] at h1
        exact h1.2
      cases hr : rejectedName cfg name with
      | true =>
          simp only [walkStatement]
          rw [if_neg (by simp [hr])]
          exact hbuf
      | false =>
          have hneq : n ≠ name := by
            intro hEq
            rw [hEq, hr] at hrej
            exact Bool.false_ne_true hrej
          obtain ⟨Δb, fb, hws, hne, heval⟩ := classDef_run cfg s name ds args body hr
          have hstart : ∀ e ∈ (classBodyStart s ds name args).buffer,
              classDeclLineFor n e.2 = false ∧ funcDeclLineFor n e.2 = false := by
            intro e he
            simp only [classBodyStart, List.mem_append, List.mem_singleton] at he
            rcases he with (he | he) | he
            · exact hbuf e he
            · simp only [List.mem_map] at he
              obtain ⟨d, -, rfl⟩ := he
              constructor
              · rw [show decoratorLine d
                    = '@' :: (printExpression d.leftExpression
                      ++ (match d.arguments with
                          | some args => str "(" ++ List.intercalate (str ", ")
                              (args.map printArgument) ++ str ")"
                          | none => [])) from rfl]
                exact classDecl_false_of_head n '@' _ (by decide)
              · rw [show decoratorLine d
                    = '@' :: (printExpression d.leftExpression
                      ++ (match d.arguments with
                          | some args => str "(" ++ List.intercalate (str ", ")
                              (args.map printArgument) ++ str ")"
                          | none => [])) from rfl]
                exact funcDecl_false_of_head n '@' _ (by decide) (by decide)
            · rw [he]
              constructor
              · exact classDecl_false_of_header n name args hnident hnameident hneq
              · rw [show classHeaderLine name args
                    = 'c' :: (((str "lass " ++ name)
                        ++ (if args.length > 0 then str "(" ++ List.intercalate (str ", ")
                              (args.map classArgText) ++ str ")" else [])) ++ str ":")
                    from rfl]
                exact funcDecl_false_of_head n 'c' _ (by decide) (by decide)
          have hbody := walkSuite_goodLines cfg n body (classBodyStart s ds name args)
            hn hrej hwf.2 hstart
          rw [hws] at hbody
          have hite : ∀ e ∈ (if fb then ([] : List (Nat × Str))
              else [(s.indentAmount + 1, str "...")]),
              classDeclLineFor n e.2 = false ∧ funcDeclLineFor n e.2 = false := by
            cases fb with
            | true => intro e he; simp at he
            | false =>
                intro e he
                simp at he
                rw [he]
                constructor
                · rw [show (str "..." : Str) = '.' :: str ".." from rfl]
                  exact classDecl_false_of_head n '.' _ (by decide)
                · rw [show (str "..." : Str) = '.' :: str ".." from rfl]
                  exact funcDecl_false_of_head n '.' _ (by decide) (by decide)
          intro e he
          rw [heval] at he
          simp only [List.mem_append] at he
          rcases he with ((he | he) | he) | he
          · exact hbody e (List.mem_append_left _ he)
          · exact hbody e (List.mem_append_right _ he)
          · exact hite e he
          · simp only [List.mem_cons, List.mem_singleton, List.not_mem_nil, or_false] at he
            rcases he with he | he <;>
              (rw [he]; exact ⟨classDecl_false_nil n, funcDecl_false_nil n⟩)
  | functionDef name isAsync ds params rta body =>
      simp only [wfStatement, Bool.and_eq_true] at hwf
      have hnameident : name.all identChar = true := by
        have h1 := hwf.1
        simp only [isIdent, Bool.and_eq_true] at h1
        exact h1.2
      by_cases hcond : s.functionNestCount = 0 ∧ rejectedName cfg name = false
      case neg =>
          simp only [walkStatement]
          rw [if_neg hcond]
          exact hbuf
      case pos =>
          have hneq : n ≠ name := by
            intro hEq
            rw [hEq, hcond.2] at hrej
            exact Bool.false_ne_true hrej
          obtain ⟨Δb, fb, hws, hne, heval⟩ :=
            funcDef_run cfg s name isAsync ds params rta body hcond.1 hcond.2
          have hstart : ∀ e ∈ (funcBodyStart s ds name isAsync params rta).buffer,
              classDeclLineFor n e.2 = false ∧ funcDeclLineFor n e.2 = false := by
            intro e he
            simp only [funcBodyStart, List.mem_append, List.mem_singleton] at he
            rcases he with (he | he) | he
            · exact hbuf e he
            · simp only [List.mem_map] at he
              obtain ⟨d, -, rfl⟩ := he
              constructor
              · rw [show decoratorLine d
                    = '@' :: (printExpression d.leftExpression
                      ++ (match d.arguments with
                          | some args => str "(" ++ List.intercalate (str ", ")
                              (args.map printArgument) ++ str ")"
                          | none => [])) from rfl]
                exact classDecl_false_of_head n '@' _ (by decide)
              · rw [show decoratorLine d
                    = '@' :: (printExpression d.leftExpression
                      ++ (match d.arguments with
                          | some args => str "(" ++ List.intercalate (str ", ")
                              (args.map printArgument) ++ str ")"
                          | none => [])) from rfl]
                exact funcDecl_false_of_head n '@' _ (by decide) (by decide)
            · rw [he]
              constructor
              · exact classDecl_false_of_funcHeader n name isAsync params rta
              · exact funcDecl_false_of_header n name isAsync params rta
                  hnident hnameident hneq
          have hbody := walkSuite_goodLines cfg n body
            (funcBodyStart s ds name isAsync params rta) hn hrej hwf.2 hstart
          rw [hws] at hbody
          have hite : ∀ e ∈ (if fb then ([] : List (Nat × Str))
              else [(s.indentAmount + 1, str "...")]),
              classDeclLineFor n e.2 = false ∧ funcDeclLineFor n e.2 = false := by
            cases fb with
            | true => intro e he; simp at he
            | false =>
                intro e he
                simp at he
                rw [he]
                constructor
                · rw [show (str "..." : Str) = '.' :: str ".." from rfl]
                  exact classDecl_false_of_head n '.' _ (by decide)
                · rw [show (str "..." : Str) = '.' :: str ".." from rfl]
                  exact funcDecl_false_of_head n '.' _ (by decide) (by decide)
          intro e he
          rw [heval] at he
          simp only [List.mem_append] at he
          rcases he with ((he | he) | he) | he
          · exact hbody e (List.mem_append_left _ he)
          · exact hbody e (List.mem_append_right _ he)
          · exact hite e he
          · simp only [List.mem_singleton] at he
            rw [he]
            exact ⟨classDecl_false_nil n, funcDecl_false_nil n⟩
  | importStmt lst =>
      simp only [walkStatement]
      split
      · exact hbuf
      · intro e he
        simp only [emitLine, List.mem_append, List.mem_singleton] at he
        rcases he with he | he
        · exact hbuf e he
        · rw [he]
          constructor
          · rw [show importLine lst
                = 'i' :: (str "mport " ++ List.intercalate (str ", ")
                    (lst.map (fun imp => printModuleName imp.module
                      ++ (match imp.aliasName with
                          | some a => str " as " ++ a
                          | none => [])))) from rfl]
            exact classDecl_false_of_head n 'i' _ (by decide)
          · rw [show importLine lst
                = 'i' :: (str "mport " ++ List.intercalate (str ", ")
                    (lst.map (fun imp => printModuleName imp.module
                      ++ (match imp.aliasName with
                          | some a => str " as " ++ a
                          | none => [])))) from rfl]
            exact funcDecl_false_of_head n 'i' _ (by decide) (by decide)
  | importFrom m wild imports =>
      simp only [walkStatement]
      split
      · exact hbuf
      · intro e he
        simp only [emitLine, List.mem_append, List.mem_singleton] at he
        rcases he with he | he
        · exact hbuf e he
        · rw [he]
          constructor
          · rw [show importFromLine m wild imports
                = 'f' :: (((str "rom " ++ printModuleName m) ++ str " import ")
                  ++ (if wild then str "*"
                      else List.intercalate (str ", ")
                        (imports.map (fun imp => imp.name
                          ++ (match imp.aliasName with
                              | some a => str " as " ++ a
                              | none => []))))) from rfl]
            exact classDecl_false_of_head n 'f' _ (by decide)
          · rw [show importFromLine m wild imports
                = 'f' :: (((str "rom " ++ printModuleName m) ++ str " import ")
                  ++ (if wild then str "*"
                      else List.intercalate (str ", ")
                        (imports.map (fun imp => imp.name
                          ++ (match imp.aliasName with
                              | some a => str " as " ++ a
                              | none => []))))) from rfl]
            exact funcDecl_false_of_head n 'f' _ (by decide) (by decide)

/-- `walkStatement_goodLines` extended over a whole suite. -/
theorem walkSuite_goodLines (cfg : Config) (n : Str) (su : Suite) (s : WriterState)
    (hn : isIdent n = true) (hrej : rejectedName cfg n = true)
    (hwf : wfSuite su = true)
    (hbuf : ∀ e ∈ s.buffer, classDeclLineFor n e.2 = false ∧ funcDeclLineFor n e.2 = false) :
    ∀ e ∈ (walkSuite cfg s su).buffer,
      classDeclLineFor n e.2 = false ∧ funcDeclLineFor n e.2 = false := by
  cases su with
  | nil => simpa [walkSuite] using hbuf
  | cons st rest =>
      simp only [wfSuite, Bool.and_eq_true] at hwf
      simp only [walkSuite]
      exact walkSuite_goodLines cfg n rest _ hn hrej hwf.2
        (walkStatement_goodLines cfg n st s hn hrej hwf.1 hbuf)

end

/-- Claim C2: for any convention-private or convention-protected identifier,
no class or function declaration line for that identifier ever appears in
the output buffer, over the whole run of the writer (well-formed input: all
class/function names are identifiers). -/
theorem C2_visibility_filtering (cfg : Config) (tree : Suite) (n : Str)
    (hn : isIdent n = true) (hrej : rejectedName cfg n = true)
    (hwf : wfSuite tree = true) :
    ∀ e ∈ writeBuffer cfg tree,
      classDeclLineFor n e.2 = false ∧ funcDeclLineFor n e.2 = false := by
  have hinit : ∀ e ∈ (emitHeaderDocString initialState).buffer,
      classDeclLineFor n e.2 = false ∧ funcDeclLineFor n e.2 = false := by
    intro e he
    simp only [emitHeaderDocString, emitLine, initialState, List.nil_append,
      List.append_assoc, List.cons_append, List.mem_cons, List.not_mem_nil,
      or_false] at he
    rcases he with he | he | he | he
    · rw [he]
      constructor
      · rw [show (str "\"\"\"" : Str) = '"' :: str "\"\"" from rfl]
        exact classDecl_false_of_head n '"' _ (by decide)
      · rw [show (str "\"\"\"" : Str) = '"' :: str "\"\"" from rfl]
        exact funcDecl_false_of_head n '"' _ (by decide) (by decide)
    · rw [he]
      constructor
      · rw [show (str "This type stub file was generated by pyright." : Str)
            = 'T' :: str "his type stub file was generated by pyright." from rfl]
        exact classDecl_false_of_head n 'T' _ (by decide)
      · rw [show (str "This type stub file was generated by pyright." : Str)
            = 'T' :: str "his type stub file was generated by pyright." from rfl]
        exact funcDecl_false_of_head n 'T' _ (by decide) (by decide)
    · rw [he]
      constructor
      · rw [show (str "\"\"\"" : Str) = '"' :: str "\"\"" from rfl]
        exact classDecl_false_of_head n '"' _ (by decide)
      · rw [show (str "\"\"\"" : Str) = '"' :: str "\"\"" from rfl]
        exact funcDecl_false_of_head n '"' _ (by decide) (by decide)
    · rw [he]
      exact ⟨classDecl_false_nil n, funcDecl_false_nil n⟩
  intro e he
  exact walkSuite_goodLines cfg n tree (emitHeaderDocString initialState)
    hn hrej hwf hinit e he

/-- Witness for `C2_visibility_filtering`: a module holding a private
function at top level and the same private function inside a public class. -/
theorem C2_witness :
    (writeBuffer cfg0 c2Tree).all
      (fun e => !(classDeclLineFor (str "_h") e.2) && !(funcDeclLineFor (str "_h") e.2)) = true := by
  have h := C2_visibility_filtering cfg0 c2Tree (str "_h") (by decide) (by decide) (by decide)
  rw [List.all_eq_true]
  intro e he
  obtain ⟨h1, h2⟩ := h e he
  simp [h1, h2]

end TypeStub
